import Mathlib

/-!
Shallow embedding of `lib/vsc/utils/rest.py` (vsc-base): the `Client`
transport executor, the `RequestBuilder` path accumulator and the
`RestClient` facade, together with executable models of the Python
standard-library collaborators they call (`base64.b64encode`,
`urllib.parse.urlencode`, `json.dumps`).  Character-level operations
(`str.upper`, `str.islower`) are modelled with their ASCII semantics.
-/

namespace Rest

/-- Python values as far as the REST client manipulates them: request
bodies, parsed JSON responses and dictionary payloads. -/
inductive PyVal where
  | none
  | bool (b : Bool)
  | int (n : Int)
  | str (s : String)
  | list (xs : List PyVal)
  | dict (kvs : List (String × PyVal))

/-- Whether a Python value is a mapping (a `dict`). -/
def PyVal.isDict : PyVal → Bool
  | .dict _ => true
  | _ => false

/-- The Python type name of a value, as `TypeError` messages spell it
(JSON numbers are modelled as integers). -/
def PyVal.pyType : PyVal → String
  | .none => "NoneType"
  | .bool _ => "bool"
  | .int _ => "int"
  | .str _ => "str"
  | .list _ => "list"
  | .dict _ => "dict"

/-- Whether Python `len(...)` is defined on the value: strings, lists and
dicts have a length; `None`, booleans and numbers raise `TypeError`. -/
def PyVal.hasLen : PyVal → Bool
  | .str _ => true
  | .list _ => true
  | .dict _ => true
  | _ => false

/-- The fixed placeholder `CENSORED_MESSAGE` of the source. -/
def CENSORED_MESSAGE : String := "<actual secret censored>"

/-- Python `d[k] = v` on a string-keyed dict: an existing key keeps its
position and gets the new value, a new key is appended. -/
def dictSet (h : List (String × String)) (k v : String) : List (String × String) :=
  if h.any (fun kv => kv.1 == k) then
    h.map (fun kv => if kv.1 == k then (k, v) else kv)
  else
    h ++ [(k, v)]

/-- Python `d.get(k)` on a string-keyed dict. -/
def dictGet (h : List (String × String)) (k : String) : Option String :=
  (h.find? (fun kv => kv.1 == k)).map (fun kv => kv.2)

/-- Python `str.endswith`. -/
def pyEndsWith (s suffix : String) : Bool := suffix.data.isSuffixOf s.data

/-- Python `str.startswith`. -/
def pyStartsWith (s pre : String) : Bool := pre.data.isPrefixOf s.data

/-- Python `str.upper` (ASCII semantics). -/
def pyUpper (s : String) : String := String.mk (s.data.map Char.toUpper)

/-- Rendering of an optional string inside a Python f-string: `None`
prints as the text "None". -/
def pyShowOpt : Option String → String
  | Option.none => "None"
  | some s => s

/-- UTF-8 bytes of one character, as `str.encode('utf-8')` produces them. -/
def charUtf8 (c : Char) : List Nat :=
  let n := c.toNat
  if n < 0x80 then [n]
  else if n < 0x800 then [0xC0 + n / 0x40, 0x80 + n % 0x40]
  else if n < 0x10000 then
    [0xE0 + n / 0x1000, 0x80 + n / 0x40 % 0x40, 0x80 + n % 0x40]
  else
    [0xF0 + n / 0x40000, 0x80 + n / 0x1000 % 0x40, 0x80 + n / 0x40 % 0x40, 0x80 + n % 0x40]

/-- UTF-8 bytes of a string. -/
def utf8Bytes (s : String) : List Nat := (s.data.map charUtf8).flatten

/-- The base64 alphabet. -/
def b64chars : List Char :=
  "ABCDEFGHIJKLMNOPQRSTUVWXYZabcdefghijklmnopqrstuvwxyz0123456789+/".data

/-- One base64 digit. -/
def b64char (n : Nat) : Char := b64chars.getD n 'A'

/-- Model of `base64.b64encode` on a byte list.  Its output never contains
whitespace, so the source's trailing `.strip()` is a no-op. -/
def b64encode : List Nat → String
  | [] => ""
  | [a] =>
      String.mk [b64char (a / 4), b64char (a % 4 * 16), '=', '=']
  | [a, b] =>
      String.mk [b64char (a / 4), b64char (a % 4 * 16 + b / 16), b64char (b % 16 * 4), '=']
  | a :: b :: c :: rest =>
      String.mk [b64char (a / 4), b64char (a % 4 * 16 + b / 16),
                 b64char (b % 16 * 4 + c / 64), b64char (c % 64)] ++ b64encode rest

/-- An uppercase hexadecimal digit. -/
def hexUpper (n : Nat) : Char := "0123456789ABCDEF".data.getD n '0'

/-- Bytes `urllib.parse.quote_plus` leaves unescaped: ASCII letters,
digits, and `_`, `.`, `-`, `~`. -/
def urlSafeByte (b : Nat) : Bool :=
  (0x41 ≤ b && b ≤ 0x5A) || (0x61 ≤ b && b ≤ 0x7A) || (0x30 ≤ b && b ≤ 0x39) ||
    b == 0x5F || b == 0x2E || b == 0x2D || b == 0x7E

/-- Model of `urllib.parse.quote_plus`: safe bytes kept, space becomes
`+`, every other byte percent-encoded. -/
def quote_plus (s : String) : String :=
  String.join ((utf8Bytes s).map (fun b =>
    if urlSafeByte b then String.mk [Char.ofNat b]
    else if b == 0x20 then "+"
    else String.mk ['%', hexUpper (b / 16), hexUpper (b % 16)]))

/-- Model of `urllib.parse.urlencode` on a list of key/value pairs. -/
def pyUrlencode (params : List (String × String)) : String :=
  String.intercalate "&" (params.map (fun kv => quote_plus kv.1 ++ "=" ++ quote_plus kv.2))

/-- A lowercase hexadecimal digit. -/
def hexLower (n : Nat) : Char := "0123456789abcdef".data.getD n '0'

/-- A JSON `\u` escape for one code unit. -/
def uEscape (n : Nat) : String :=
  String.mk ['\\', 'u', hexLower (n / 4096 % 16), hexLower (n / 256 % 16),
             hexLower (n / 16 % 16), hexLower (n % 16)]

/-- JSON escaping of one character, as `json.dumps` (with its default
`ensure_ascii`) writes it. -/
def jsonEscapeChar (c : Char) : String :=
  if c == '"' then "\\\""
  else if c == '\\' then "\\\\"
  else if c == '\n' then "\\n"
  else if c == '\r' then "\\r"
  else if c == '\t' then "\\t"
  else if c.toNat == 8 then "\\b"
  else if c.toNat == 12 then "\\f"
  else if c.toNat < 0x20 then uEscape c.toNat
  else if c.toNat < 0x7F then String.mk [c]
  else if c.toNat < 0x10000 then uEscape c.toNat
  else
    uEscape (0xD800 + (c.toNat - 0x10000) / 0x400) ++ uEscape (0xDC00 + (c.toNat - 0x10000) % 0x400)

/-- A JSON string literal for `s`. -/
def jsonQuote (s : String) : String :=
  "\"" ++ String.join (s.data.map jsonEscapeChar) ++ "\""

mutual

/-- Model of `json.dumps` with its default separators. -/
def json_dumps : PyVal → String
  | .none => "null"
  | .bool true => "true"
  | .bool false => "false"
  | .int n => toString n
  | .str s => jsonQuote s
  | .list xs => "[" ++ jsonDumpsList xs ++ "]"
  | .dict kvs => "\x7b" ++ jsonDumpsDict kvs ++ "\x7d"

/-- Comma-separated serialization of a JSON array's elements. -/
def jsonDumpsList : List PyVal → String
  | [] => ""
  | [x] => json_dumps x
  | x :: xs => json_dumps x ++ ", " ++ jsonDumpsList xs

/-- Comma-separated serialization of a JSON object's entries. -/
def jsonDumpsDict : List (String × PyVal) → String
  | [] => ""
  | [(k, v)] => jsonQuote k ++ ": " ++ json_dumps v
  | (k, v) :: kvs => jsonQuote k ++ ": " ++ json_dumps v ++ ", " ++ jsonDumpsDict kvs

end

/-- Model of the static method `Client.censor_request`: replace the values
of the payload's top-level keys that occur in `secrets` with
`CENSORED_MESSAGE`.  A non-dict payload comes back unchanged: in the source
the `TypeError` raised while indexing a non-mapping payload is caught and
the (deep) copy is returned as it is. -/
def censor_request (secrets : List String) (payload : PyVal) : PyVal :=
  match payload with
  | .dict kvs =>
    .dict (kvs.map (fun kv => if secrets.contains kv.1 then (kv.1, .str CENSORED_MESSAGE) else kv))
  | p => p

/-- The same `Client.censor_request`, applied to the string-valued headers
dictionary. -/
def censorHeaders (secrets : List String) (hs : List (String × String)) : List (String × String) :=
  hs.map (fun kv => if secrets.contains kv.1 then (kv.1, CENSORED_MESSAGE) else kv)

/-- The class constant `Client.HTTP_METHODS`. -/
def HTTP_METHODS : List String := ["DELETE", "GET", "HEAD", "PATCH", "POST", "PUT"]

/-- The class constant `Client.USER_AGENT`. -/
def USER_AGENT : String := "vsc-rest-client"

/-- The connection configuration a constructed `Client` instance holds
(the `opener` field, pure transport plumbing, is not part of the model). -/
structure Client where
  url : String
  username : Option String
  auth_header : Option String
  user_agent : String
  append_slash : Bool
deriving DecidableEq

/-- Model of `Client.hash_pass`: the Basic auth header.  A falsy `username`
argument (absent or empty) is replaced by the client's stored username;
`None` renders as the text "None" inside the f-string. -/
def hash_pass (self_username : Option String) (password : String) (username : Option String) : String :=
  let username := if username = Option.none ∨ username = some "" then self_username else username
  "Basic " ++ b64encode (utf8Bytes (pyShowOpt username ++ ":" ++ password))

/-- Model of `Client.__init__`: the credential checks and the derived
fields.  A raised `TypeError` is modelled as `Except.error` carrying the
message. -/
def mkClient (url : String) (username password token : Option String)
    (token_type : String) (user_agent : Option String) (append_slash : Bool) :
    Except String Client :=
  let ua := match user_agent with
    | Option.none => USER_AGENT
    | some s => if s = "" then USER_AGENT else s
  if username ≠ Option.none ∧ password = Option.none ∧ token = Option.none then
    .error ("You need a password or an OAuth token to authenticate as " ++ pyShowOpt username)
  else if username ≠ Option.none ∧ password ≠ Option.none ∧ token ≠ Option.none then
    .error "You cannot use both password and OAuth token authenication"
  else
    let auth : Option String :=
      match password with
      | some p => some (hash_pass username p username)
      | Option.none =>
        match token with
        | some t => some (token_type ++ " " ++ t)
        | Option.none => Option.none
    .ok ⟨url, username, auth, ua, append_slash⟩

/-- Model of `Client._append_slash_to`. -/
def Client.append_slash_to (c : Client) (url : String) : String :=
  if c.append_slash && !(pyEndsWith url "/") then url ++ "/" else url

/-- Model of the method `Client.urlencode`: empty params give the empty
string, otherwise `?` followed by the urlencoded pairs. -/
def Client.urlencode (params : List (String × String)) : String :=
  if params = [] then "" else "?" ++ pyUrlencode params

/-- The absolute URL `Client.get_connection` opens: a `/` separator is
inserted exactly when the base URL does not end with one and the relative
URL does not start with one. -/
def Client.connect_url (c : Client) (url : String) : String :=
  let sep := if !(pyEndsWith c.url "/") && !(pyStartsWith url "/") then "/" else ""
  c.url ++ sep ++ url

/-- An HTTP response as the transport hands it back: status code, response
headers, and the response bytes already decoded as UTF-8 text. -/
structure HttpResponse where
  code : Nat
  resp_headers : List (String × String)
  body : String
deriving DecidableEq

/-- What `Client.request` returns as the response body: the response
header collection (HEAD), a parsed JSON value, or the raw text. -/
inductive ResponseBody where
  | headers (hs : List (String × String))
  | json (v : PyVal)
  | text (s : String)

/-- Whether Python `len(...)` is defined on the value `request` is about
to return: the response header collection (`email.message.Message`
implements `__len__`) and the text fallback (a `str`) always have a
length; a parsed JSON value has one exactly when it is a string, array or
object. -/
def ResponseBody.hasLen : ResponseBody → Bool
  | .headers _ => true
  | .json v => v.hasLen
  | .text _ => true

/-- The Python type name of the value `request` is about to return, for
the `TypeError` message `len(...)` raises. -/
def ResponseBody.pyTypeName : ResponseBody → String
  | .headers _ => "Message"
  | .json v => v.pyType
  | .text _ => "str"

/-- The observable effects of one `Client.request` call: the wire request
`get_connection` opens (`wire_headers` is the final state of the caller's
headers dictionary, which the source mutates in place), the censored
request the source logs, and the result — `(status, body)` on return, or
the `TypeError` the response-size debug log `len(pybody)` raises when the
body it is about to return has no length.  The wire and log fields are
produced before that raise, so they describe every execution. -/
structure RequestOutcome where
  wire_method : String
  wire_url : String
  wire_body : Option String
  wire_headers : List (String × String)
  log_body : PyVal
  log_headers : List (String × String)
  result : Except String (Nat × ResponseBody)

/-- Model of `Client.request`.  `resp` is the response the opened
connection yields; `loads` models the external decoder `json.loads`,
returning `Option.none` where the source's `ValueError` is raised.  Before
returning, the source logs the response size with `len(pybody)`, which
raises `TypeError` when the decoded body is a scalar (`None`, a boolean or
a number); the result is therefore an `Except`. -/
def Client.request (c : Client) (method url : String) (body : PyVal)
    (headers : Option (List (String × String))) (content_type : Option String)
    (resp : HttpResponse) (loads : String → Option PyVal) : RequestOutcome :=
  let headers := headers.getD []
  let headers := match content_type with
    | some ct => dictSet headers "Content-Type" ct
    | Option.none => headers
  let headers := match c.auth_header with
    | some a => dictSet headers "Authorization" a
    | Option.none => headers
  let headers := dictSet headers "User-Agent" c.user_agent
  let headers_censored := censorHeaders ["Authorization", "X-Auth-Token"] headers
  let body_censored := match body with
    | .none => PyVal.none
    | .str s => PyVal.str s
    | b => censor_request ["password"] b
  let wire_body : Option String := match body with
    | .none => Option.none
    | .str s => some s
    | b => some (json_dumps b)
  let pybody : ResponseBody :=
    if method = "HEAD" then .headers resp.resp_headers
    else match loads resp.body with
      | some v => .json v
      | Option.none => .text resp.body
  ⟨method, c.connect_url url, wire_body, headers, body_censored, headers_censored,
   if pybody.hasLen then .ok (resp.code, pybody)
   else .error ("TypeError: object of type " ++ pybody.pyTypeName ++ " has no len()")⟩

/-- Model of `Client.get`. -/
def Client.get (c : Client) (url : String) (headers : Option (List (String × String)))
    (params : List (String × String)) (resp : HttpResponse)
    (loads : String → Option PyVal) : RequestOutcome :=
  c.request "GET" (c.append_slash_to url ++ Client.urlencode params) .none headers
    Option.none resp loads

/-- Model of `Client.head`. -/
def Client.head (c : Client) (url : String) (headers : Option (List (String × String)))
    (params : List (String × String)) (resp : HttpResponse)
    (loads : String → Option PyVal) : RequestOutcome :=
  c.request "HEAD" (c.append_slash_to url ++ Client.urlencode params) .none headers
    Option.none resp loads

/-- Model of `Client.delete`. -/
def Client.delete (c : Client) (url : String) (headers : Option (List (String × String)))
    (body : PyVal) (params : List (String × String)) (resp : HttpResponse)
    (loads : String → Option PyVal) : RequestOutcome :=
  c.request "DELETE" (c.append_slash_to url ++ Client.urlencode params) body headers
    (some "application/json") resp loads

/-- Model of `Client.post`. -/
def Client.post (c : Client) (url : String) (body : PyVal)
    (headers : Option (List (String × String))) (params : List (String × String))
    (resp : HttpResponse) (loads : String → Option PyVal) : RequestOutcome :=
  c.request "POST" (c.append_slash_to url ++ Client.urlencode params) body headers
    (some "application/json") resp loads

/-- Model of `Client.put`. -/
def Client.put (c : Client) (url : String) (body : PyVal)
    (headers : Option (List (String × String))) (params : List (String × String))
    (resp : HttpResponse) (loads : String → Option PyVal) : RequestOutcome :=
  c.request "PUT" (c.append_slash_to url ++ Client.urlencode params) body headers
    (some "application/json") resp loads

/-- Model of `Client.patch`. -/
def Client.patch (c : Client) (url : String) (body : PyVal)
    (headers : Option (List (String × String))) (params : List (String × String))
    (resp : HttpResponse) (loads : String → Option PyVal) : RequestOutcome :=
  c.request "PATCH" (c.append_slash_to url ++ Client.urlencode params) body headers
    (some "application/json") resp loads

/-- The six HTTP verb methods of `Client`. -/
inductive Verb where
  | DELETE | GET | HEAD | PATCH | POST | PUT
deriving DecidableEq

/-- What `getattr(client, key)` finds for a key passing the verb guard of
`RequestBuilder.__getattr__`: the verb methods of `Client` are its only
attributes named by a case variant of an HTTP verb that contains a
lowercase letter, and they are spelt all-lowercase; any other case variant
raises `AttributeError`, modelled as `Option.none`. -/
def clientVerbAttr (key : String) : Option Verb :=
  if key = "delete" then some .DELETE
  else if key = "get" then some .GET
  else if key = "head" then some .HEAD
  else if key = "patch" then some .PATCH
  else if key = "post" then some .POST
  else if key = "put" then some .PUT
  else Option.none

/-- The state of a `RequestBuilder`: the shared client and the accumulated
relative path. -/
structure RequestBuilder where
  client : Client
  url : String
deriving DecidableEq

/-- What one attribute or item access on a `RequestBuilder` produces:
the builder returned for further chaining, a verb callable bound to the
accumulated path, or a raised `AttributeError`. -/
inductive StepResult where
  | next (b : RequestBuilder)
  | dispatch (v : Verb) (boundUrl : String)
  | attrError
deriving DecidableEq

/-- The guard of `RequestBuilder.__getattr__`: the accessed name
uppercases to one of `HTTP_METHODS` and contains at least one lowercase
character. -/
def verbGuard (key : String) : Bool :=
  HTTP_METHODS.contains (pyUpper key) && key.data.any Char.isLower

/-- Model of `RequestBuilder.__getattr__`. -/
def RequestBuilder.getattr (b : RequestBuilder) (key : String) : StepResult :=
  if verbGuard key then
    match clientVerbAttr key with
    | some v => .dispatch v b.url
    | Option.none => .attrError
  else
    .next ⟨b.client, b.url ++ "/" ++ key⟩

/-- The source binds `__getitem__ = __getattr__`: item access is the same
function as attribute access. -/
def RequestBuilder.getitem (b : RequestBuilder) (key : String) : StepResult :=
  RequestBuilder.getattr b key

/-- Model of `RestClient.__getattr__`: a top-level access starts a fresh
builder with the empty accumulated path. -/
def RestClient.getattr (c : Client) (key : String) : StepResult :=
  RequestBuilder.getattr ⟨c, ""⟩ key

/-- The two surface syntaxes for supplying a segment. -/
inductive Access where
  | attr
  | item
deriving DecidableEq

/-- Apply one access of the given style. -/
def applyAccess : Access → RequestBuilder → String → StepResult
  | .attr, b, k => RequestBuilder.getattr b k
  | .item, b, k => RequestBuilder.getitem b k

/-- Run a chain of segment accesses; `Option.none` if any access
dispatches or raises instead of returning the builder. -/
def runAccesses : RequestBuilder → List (Access × String) → Option RequestBuilder
  | b, [] => some b
  | b, (a, k) :: rest =>
    match applyAccess a b k with
    | .next b2 => runAccesses b2 rest
    | _ => Option.none

/-- A client used for concrete evaluations: no credentials. -/
def demoClient : Client := ⟨"http://h", Option.none, Option.none, "vsc-rest-client", false⟩

/-- The client of the end-to-end scenario: token `abc`. -/
def exampleClient : Client :=
  ⟨"https://api.example.com", Option.none, some "Token abc", "vsc-rest-client", false⟩


/-! Helper lemmas about the dictionary model, the path accumulator and the
string joins used in the claims. -/

/-- Finding the updated key after an in-place value replacement. -/
lemma find?_setKey_self (h : List (String × String)) (k v : String) :
    (h.map (fun kv => if kv.1 == k then (k, v) else kv)).find? (fun kv => kv.1 == k)
      = (h.find? (fun kv => kv.1 == k)).map (fun _ => (k, v)) := by
  induction h with
  | nil => rfl
  | cons kv t ih =>
    rw [List.map_cons]
    by_cases hkv : (kv.1 == k) = true
    · rw [if_pos hkv,
        List.find?_cons_of_pos (p := fun kv : String × String => kv.1 == k) _ (by simp),
        List.find?_cons_of_pos (p := fun kv : String × String => kv.1 == k) _ hkv]
      rfl
    · rw [if_neg hkv, List.find?_cons_of_neg (p := fun kv : String × String => kv.1 == k) _ hkv,
        List.find?_cons_of_neg (p := fun kv : String × String => kv.1 == k) _ hkv, ih]

/-- Looking up the key just written by `dictSet` yields the new value. -/
lemma dictGet_dictSet_self (h : List (String × String)) (k v : String) :
    dictGet (dictSet h k v) k = some v := by
  unfold dictGet dictSet
  by_cases hany : h.any (fun kv => kv.1 == k) = true
  · rw [if_pos hany, find?_setKey_self]
    cases hf : h.find? (fun kv => kv.1 == k) with
    | none =>
      rcases List.any_eq_true.mp hany with ⟨x, hx, hpx⟩
      exact absurd hpx (List.find?_eq_none.mp hf x hx)
    | some y => rfl
  · rw [if_neg hany, List.find?_append]
    have hnone : h.find? (fun kv => kv.1 == k) = none :=
      List.find?_eq_none.mpr (fun x hx hpx => hany (List.any_eq_true.mpr ⟨x, hx, hpx⟩))
    rw [hnone, List.find?_cons_of_pos (p := fun kv : String × String => kv.1 == k) _ (by simp)]
    rfl

/-- Replacing the value under key `k` leaves lookups of other keys alone. -/
lemma find?_setKey_other (h : List (String × String)) (k v k' : String) (hne : k' ≠ k) :
    (h.map (fun kv => if kv.1 == k then (k, v) else kv)).find? (fun kv => kv.1 == k')
      = h.find? (fun kv => kv.1 == k') := by
  induction h with
  | nil => rfl
  | cons kv t ih =>
    rw [List.map_cons]
    by_cases hkv : (kv.1 == k) = true
    · have hkv' : kv.1 = k := by simpa using hkv
      rw [if_pos hkv,
        List.find?_cons_of_neg (p := fun kv : String × String => kv.1 == k') _
          (by simp [Ne.symm hne]),
        List.find?_cons_of_neg (p := fun kv : String × String => kv.1 == k') _
          (by simp [hkv', Ne.symm hne]), ih]
    · rw [if_neg hkv]
      by_cases hk' : (kv.1 == k') = true
      · rw [List.find?_cons_of_pos (p := fun kv : String × String => kv.1 == k') _ hk',
          List.find?_cons_of_pos (p := fun kv : String × String => kv.1 == k') _ hk']
      · rw [List.find?_cons_of_neg (p := fun kv : String × String => kv.1 == k') _ hk',
          List.find?_cons_of_neg (p := fun kv : String × String => kv.1 == k') _ hk', ih]

/-- Writing key `k` does not change the lookup of a different key. -/
lemma dictGet_dictSet_other (h : List (String × String)) (k v k' : String) (hne : k' ≠ k) :
    dictGet (dictSet h k v) k' = dictGet h k' := by
  unfold dictGet dictSet
  by_cases hany : h.any (fun kv => kv.1 == k) = true
  · rw [if_pos hany, find?_setKey_other h k v k' hne]
  · rw [if_neg hany, List.find?_append,
      List.find?_cons_of_neg (p := fun kv : String × String => kv.1 == k') _
        (by simp [Ne.symm hne])]
    rw [show (List.find? (fun kv => kv.1 == k') [] : Option (String × String)) = none from rfl,
      Option.or_none]

/-- A key `getattr` resolves to a verb method is one of the six lowercase
method names and passes the guard. -/
lemma clientVerbAttr_eq_some {key : String} {v : Verb} (h : clientVerbAttr key = some v) :
    key ∈ (["delete", "get", "head", "patch", "post", "put"] : List String) ∧
      verbGuard key = true := by
  unfold clientVerbAttr at h
  split_ifs at h with h1 h2 h3 h4 h5 h6
  · subst h1; exact ⟨by decide, by decide⟩
  · subst h2; exact ⟨by decide, by decide⟩
  · subst h3; exact ⟨by decide, by decide⟩
  · subst h4; exact ⟨by decide, by decide⟩
  · subst h5; exact ⟨by decide, by decide⟩
  · subst h6; exact ⟨by decide, by decide⟩

/-- Accessing a lowercase verb name dispatches with the accumulated path. -/
lemma getattr_dispatch_of_attr {key : String} {v : Verb} (b : RequestBuilder)
    (h : clientVerbAttr key = some v) :
    RequestBuilder.getattr b key = .dispatch v b.url := by
  unfold RequestBuilder.getattr
  rw [if_pos (clientVerbAttr_eq_some h).2, h]

/-- Accessing a name that fails the verb guard appends it as a segment. -/
lemma getattr_next_of_not_guard {key : String} (b : RequestBuilder)
    (h : verbGuard key = false) :
    RequestBuilder.getattr b key = .next ⟨b.client, b.url ++ "/" ++ key⟩ := by
  unfold RequestBuilder.getattr
  rw [if_neg (by simp [h])]

/-- Both access styles are one and the same operation. -/
lemma applyAccess_eq (a : Access) (b : RequestBuilder) (k : String) :
    applyAccess a b k = RequestBuilder.getattr b k := by
  cases a <;> rfl

/-- Folding string append over a list from any initial accumulator. -/
lemma foldl_append_init (l : List String) :
    ∀ a : String, l.foldl (fun r s => r ++ s) a = a ++ l.foldl (fun r s => r ++ s) "" := by
  induction l with
  | nil => intro a; simp
  | cons x t ih =>
    intro a
    show t.foldl (fun r s => r ++ s) (a ++ x) = a ++ t.foldl (fun r s => r ++ s) ("" ++ x)
    rw [ih (a ++ x), ih ("" ++ x)]
    simp [String.append_assoc]

/-- Unfolding `String.join` over a cons. -/
lemma join_cons (x : String) (l : List String) :
    String.join (x :: l) = x ++ String.join l := by
  show l.foldl (fun r s => r ++ s) ("" ++ x) = x ++ l.foldl (fun r s => r ++ s) ""
  rw [foldl_append_init l ("" ++ x)]
  simp

/-- Running a chain of non-verb accesses appends every segment, prefixed
with `/`, to the accumulated path, for either access style. -/
lemma runAccesses_segments (segs : List String) :
    ∀ (styles : List Access) (c : Client) (u : String),
      styles.length = segs.length →
      (∀ s ∈ segs, verbGuard s = false) →
      runAccesses ⟨c, u⟩ (styles.zip segs)
        = some ⟨c, u ++ String.join (segs.map (fun s => "/" ++ s))⟩ := by
  induction segs with
  | nil =>
    intro styles c u hlen _
    have : styles = [] := List.length_eq_zero.mp hlen
    subst this
    simp [runAccesses, String.join]
  | cons s rest ih =>
    intro styles c u hlen hseg
    match styles with
    | [] => exact absurd hlen (by simp)
    | a :: styles' =>
      have hs : verbGuard s = false := hseg s (List.mem_cons_self s rest)
      rw [List.zip_cons_cons]
      show runAccesses ⟨c, u⟩ ((a, s) :: styles'.zip rest) = _
      rw [runAccesses, applyAccess_eq, getattr_next_of_not_guard _ hs]
      show runAccesses ⟨c, u ++ "/" ++ s⟩ (styles'.zip rest) = _
      rw [ih styles' c (u ++ "/" ++ s) (by simpa using hlen)
        (fun x hx => hseg x (List.mem_cons_of_mem s hx))]
      rw [List.map_cons, join_cons]
      simp [String.append_assoc]

/-- The accumulator loop of `String.intercalate` written as a join. -/
lemma intercalate_go_spec (l : List String) :
    ∀ acc : String, String.intercalate.go acc "/" l
      = acc ++ String.join (l.map (fun s => "/" ++ s)) := by
  induction l with
  | nil => intro acc; simp [String.intercalate.go, String.join]
  | cons a as ih =>
    intro acc
    rw [String.intercalate.go, ih (acc ++ "/" ++ a), List.map_cons, join_cons]
    simp [String.append_assoc]

/-- For a nonempty segment list, prefixing each segment with `/` and
concatenating equals `/` followed by the segments joined by `/`. -/
lemma joinSlash_eq_intercalate (segs : List String) (hne : segs ≠ []) :
    String.join (segs.map (fun s => "/" ++ s)) = "/" ++ String.intercalate "/" segs := by
  match segs with
  | [] => exact absurd rfl hne
  | s :: rest =>
    rw [show String.intercalate "/" (s :: rest) = String.intercalate.go s "/" rest from rfl,
      intercalate_go_spec rest s, List.map_cons, join_cons]
    simp [String.append_assoc]

/-- The headers dictionary `Client.request` ends up sending (which is the
caller's dictionary, mutated in place by the source). -/
lemma wire_headers_eq (c : Client) (method url : String) (body : PyVal)
    (headers : Option (List (String × String))) (content_type : Option String)
    (resp : HttpResponse) (loads : String → Option PyVal) :
    (c.request method url body headers content_type resp loads).wire_headers
      = dictSet
          (match c.auth_header with
           | some a => dictSet
               (match content_type with
                | some ct => dictSet (headers.getD []) "Content-Type" ct
                | Option.none => headers.getD []) "Authorization" a
           | Option.none =>
               match content_type with
               | some ct => dictSet (headers.getD []) "Content-Type" ct
               | Option.none => headers.getD [])
          "User-Agent" c.user_agent := by
  simp only [Client.request]

/-- With a content type supplied, the sent headers carry it. -/
lemma request_contentType_set (c : Client) (method url : String) (body : PyVal)
    (headers : Option (List (String × String))) (ct : String)
    (resp : HttpResponse) (loads : String → Option PyVal) :
    dictGet (c.request method url body headers (some ct) resp loads).wire_headers
      "Content-Type" = some ct := by
  rw [wire_headers_eq]
  cases c.auth_header with
  | none =>
    rw [dictGet_dictSet_other _ _ _ _ (by decide), dictGet_dictSet_self]
  | some a =>
    rw [dictGet_dictSet_other _ _ _ _ (by decide),
      dictGet_dictSet_other _ _ _ _ (by decide), dictGet_dictSet_self]

/-- With no content type supplied, the caller's Content-Type entry (if
any) is what the sent headers carry. -/
lemma request_contentType_unset (c : Client) (method url : String) (body : PyVal)
    (headers : Option (List (String × String)))
    (resp : HttpResponse) (loads : String → Option PyVal) :
    dictGet (c.request method url body headers Option.none resp loads).wire_headers
      "Content-Type" = dictGet (headers.getD []) "Content-Type" := by
  rw [wire_headers_eq]
  cases c.auth_header with
  | none =>
    rw [dictGet_dictSet_other _ _ _ _ (by decide)]
  | some a =>
    rw [dictGet_dictSet_other _ _ _ _ (by decide),
      dictGet_dictSet_other _ _ _ _ (by decide)]

/-! The claims. -/

/-- C1, counterexample: one segment access (`repos`) followed by the verb
call `get` binds the path `/repos`, which is not the single segment joined
by `/` (that would be `repos`): the accumulator prefixes every segment
with a slash. -/
theorem C1_counterexample :
    RestClient.getattr demoClient "repos" = .next ⟨demoClient, "/repos"⟩ ∧
    RequestBuilder.getattr ⟨demoClient, "/repos"⟩ "get" = .dispatch .GET "/repos" ∧
    "/repos" ≠ String.intercalate "/" ["repos"] := by
  refine ⟨rfl, rfl, ?_⟩
  decide

/-- C1 (amended): for every sequence of N segment accesses, each supplied
attribute-style or as indexed access, followed by a recognized verb call,
the path bound as the target URL equals the concatenation of `/` ++ segment
over the N segments — that is, for N ≥ 1, a `/` followed by the N segments
joined by `/` — and both access styles produce the identical path (the
result does not depend on `styles`). -/
theorem C1_path_accumulation (c : Client) (styles : List Access) (segs : List String)
    (vkey : String) (v : Verb)
    (hlen : styles.length = segs.length)
    (hseg : ∀ s ∈ segs, verbGuard s = false)
    (hverb : clientVerbAttr vkey = some v) :
    runAccesses ⟨c, ""⟩ (styles.zip segs)
      = some ⟨c, String.join (segs.map (fun s => "/" ++ s))⟩ ∧
    RequestBuilder.getattr ⟨c, String.join (segs.map (fun s => "/" ++ s))⟩ vkey
      = .dispatch v (String.join (segs.map (fun s => "/" ++ s))) ∧
    (segs ≠ [] → String.join (segs.map (fun s => "/" ++ s))
      = "/" ++ String.intercalate "/" segs) := by
  refine ⟨?_, getattr_dispatch_of_attr _ hverb, fun hne => joinSlash_eq_intercalate segs hne⟩
  have h := runAccesses_segments segs styles c "" hlen hseg
  simpa using h

/-- C1 witness: the amended claim evaluated on the two-segment chain
`.repos["org"].get`, mixing the two access styles. -/
theorem C1_path_accumulation_witness :
    runAccesses ⟨demoClient, ""⟩ ([Access.attr, Access.item].zip ["repos", "org"])
      = some ⟨demoClient, String.join (["repos", "org"].map (fun s => "/" ++ s))⟩ ∧
    RequestBuilder.getattr
        ⟨demoClient, String.join (["repos", "org"].map (fun s => "/" ++ s))⟩ "get"
      = .dispatch .GET (String.join (["repos", "org"].map (fun s => "/" ++ s))) ∧
    (["repos", "org"] ≠ ([] : List String) →
      String.join (["repos", "org"].map (fun s => "/" ++ s))
        = "/" ++ String.intercalate "/" ["repos", "org"]) :=
  C1_path_accumulation demoClient [Access.attr, Access.item] ["repos", "org"] "get" .GET
    (by decide) (by decide) (by decide)

/-- C2, counterexample: the name `Get` satisfies the claim's condition
(uppercases to `GET`, one of the six methods, and contains lowercase
characters), yet the access raises `AttributeError` — `getattr` finds no
`Get` attribute on the client — instead of returning a callable bound to
the accumulated path. -/
theorem C2_counterexample :
    verbGuard "Get" = true ∧
    pyUpper "Get" ∈ HTTP_METHODS ∧ "Get".data.any Char.isLower = true ∧
    RequestBuilder.getattr ⟨demoClient, ""⟩ "Get" = .attrError := by
  decide

/-- C2 (amended): an accessed name enters the verb branch iff its
uppercased form is one of the six HTTP methods and it has at least one
lowercase character; the access returns a callable bound to the
accumulated path iff the name is exactly one of the lowercase spellings
`delete`, `get`, `head`, `patch`, `post`, `put`; a name failing the guard
is appended to the path as an ordinary segment, and a name passing the
guard that is not an attribute of the client raises `AttributeError`. -/
theorem C2_verb_dispatch (b : RequestBuilder) (key : String) :
    ((∃ v, RequestBuilder.getattr b key = .dispatch v b.url) ↔
      key ∈ (["delete", "get", "head", "patch", "post", "put"] : List String)) ∧
    (verbGuard key = false →
      RequestBuilder.getattr b key = .next ⟨b.client, b.url ++ "/" ++ key⟩) ∧
    (verbGuard key = true → clientVerbAttr key = Option.none →
      RequestBuilder.getattr b key = .attrError) := by
  refine ⟨⟨?_, ?_⟩, getattr_next_of_not_guard b, ?_⟩
  · rintro ⟨v, hv⟩
    unfold RequestBuilder.getattr at hv
    by_cases hg : verbGuard key
    · rw [if_pos hg] at hv
      cases hcv : clientVerbAttr key with
      | none => rw [hcv] at hv; cases hv
      | some w => exact (clientVerbAttr_eq_some hcv).1
    · rw [if_neg hg] at hv; cases hv
  · intro hmem
    fin_cases hmem
    · exact ⟨Verb.DELETE, getattr_dispatch_of_attr b rfl⟩
    · exact ⟨Verb.GET, getattr_dispatch_of_attr b rfl⟩
    · exact ⟨Verb.HEAD, getattr_dispatch_of_attr b rfl⟩
    · exact ⟨Verb.PATCH, getattr_dispatch_of_attr b rfl⟩
    · exact ⟨Verb.POST, getattr_dispatch_of_attr b rfl⟩
    · exact ⟨Verb.PUT, getattr_dispatch_of_attr b rfl⟩
  · intro hg hnone
    unfold RequestBuilder.getattr
    rw [if_pos hg, hnone]

/-- C3: constructing a client with no username but BOTH a password and a
token does not raise — the both-credentials check sits under the
`username is not None` branch — and the password silently wins, deriving
`Basic base64("None:p")` (the absent username renders as the text `None`
in the credential string). -/
theorem C3_both_password_and_token_without_username :
    mkClient "https://x" Option.none (some "p") (some "t") "Token" Option.none false
      = .ok ⟨"https://x", Option.none,
          some ("Basic " ++ b64encode (utf8Bytes (pyShowOpt Option.none ++ ":" ++ "p"))),
          "vsc-rest-client", false⟩ ∧
    "Basic " ++ b64encode (utf8Bytes (pyShowOpt Option.none ++ ":" ++ "p"))
      = "Basic Tm9uZTpw" := by
  exact ⟨rfl, rfl⟩

/-- C4, counterexample: the same chain and request with a 200 response
whose body is the JSON scalar `null` — parsing succeeds — does not return
the pair `(200, parsed JSON body)`: the response-size debug log raises
`TypeError` on `len(None)` before the return. -/
theorem C4_counterexample :
    (fun s => if s = "null" then some PyVal.none else Option.none) "null"
      = some PyVal.none ∧
    (exampleClient.get "/repos/org/name/issues" Option.none [("state", "open")]
      ⟨200, [], "null"⟩
      (fun s => if s = "null" then some PyVal.none else Option.none)).result
      = .error "TypeError: object of type NoneType has no len()" := by
  exact ⟨rfl, rfl⟩

/-- C4 (amended): a client on `https://api.example.com` with token `abc`
evaluating `.repos["org"]["name"].issues.get(state="open")` issues a GET
to exactly `https://api.example.com/repos/org/name/issues?state=open`
with request header `Authorization: Token abc`; when the server answers
200 with a JSON body whose parsed value is an object, array or string it
returns `(200, parsed JSON)`, and when the body parses to scalar JSON
(null, boolean or number) the request is still issued as above but the
response-size debug log raises `TypeError` instead of returning. -/
theorem C4_end_to_end (loads : String → Option PyVal) (resp : HttpResponse) (v : PyVal)
    (hcode : resp.code = 200) (hparse : loads resp.body = some v) :
    mkClient "https://api.example.com" Option.none Option.none (some "abc") "Token"
      Option.none false = .ok exampleClient ∧
    RestClient.getattr exampleClient "repos" = .next ⟨exampleClient, "/repos"⟩ ∧
    RequestBuilder.getitem ⟨exampleClient, "/repos"⟩ "org"
      = .next ⟨exampleClient, "/repos/org"⟩ ∧
    RequestBuilder.getitem ⟨exampleClient, "/repos/org"⟩ "name"
      = .next ⟨exampleClient, "/repos/org/name"⟩ ∧
    RequestBuilder.getattr ⟨exampleClient, "/repos/org/name"⟩ "issues"
      = .next ⟨exampleClient, "/repos/org/name/issues"⟩ ∧
    RequestBuilder.getattr ⟨exampleClient, "/repos/org/name/issues"⟩ "get"
      = .dispatch .GET "/repos/org/name/issues" ∧
    (exampleClient.get "/repos/org/name/issues" Option.none [("state", "open")]
      resp loads).wire_method = "GET" ∧
    (exampleClient.get "/repos/org/name/issues" Option.none [("state", "open")]
      resp loads).wire_url = "https://api.example.com/repos/org/name/issues?state=open" ∧
    dictGet (exampleClient.get "/repos/org/name/issues" Option.none [("state", "open")]
      resp loads).wire_headers "Authorization" = some "Token abc" ∧
    (v.hasLen = true →
      (exampleClient.get "/repos/org/name/issues" Option.none [("state", "open")]
        resp loads).result = .ok (200, .json v)) ∧
    (v.hasLen = false →
      (exampleClient.get "/repos/org/name/issues" Option.none [("state", "open")]
        resp loads).result
        = .error ("TypeError: object of type " ++ v.pyType ++ " has no len()")) := by
  refine ⟨rfl, rfl, rfl, rfl, rfl, rfl, rfl, rfl, rfl, ?_, ?_⟩
  · intro hl
    simp [Client.get, Client.request, ResponseBody.hasLen, hcode, hparse, hl]
  · intro hl
    simp [Client.get, Client.request, ResponseBody.hasLen, ResponseBody.pyTypeName,
      hcode, hparse, hl]

/-- C4 witness: the scenario evaluated with a concrete 200 response whose
body parses to an empty JSON array. -/
theorem C4_end_to_end_witness :
    mkClient "https://api.example.com" Option.none Option.none (some "abc") "Token"
      Option.none false = .ok exampleClient ∧
    RestClient.getattr exampleClient "repos" = .next ⟨exampleClient, "/repos"⟩ ∧
    RequestBuilder.getitem ⟨exampleClient, "/repos"⟩ "org"
      = .next ⟨exampleClient, "/repos/org"⟩ ∧
    RequestBuilder.getitem ⟨exampleClient, "/repos/org"⟩ "name"
      = .next ⟨exampleClient, "/repos/org/name"⟩ ∧
    RequestBuilder.getattr ⟨exampleClient, "/repos/org/name"⟩ "issues"
      = .next ⟨exampleClient, "/repos/org/name/issues"⟩ ∧
    RequestBuilder.getattr ⟨exampleClient, "/repos/org/name/issues"⟩ "get"
      = .dispatch .GET "/repos/org/name/issues" ∧
    (exampleClient.get "/repos/org/name/issues" Option.none [("state", "open")]
      ⟨200, [], "[]"⟩ (fun _ => some (PyVal.list []))).wire_method = "GET" ∧
    (exampleClient.get "/repos/org/name/issues" Option.none [("state", "open")]
      ⟨200, [], "[]"⟩ (fun _ => some (PyVal.list []))).wire_url
      = "https://api.example.com/repos/org/name/issues?state=open" ∧
    dictGet (exampleClient.get "/repos/org/name/issues" Option.none [("state", "open")]
      ⟨200, [], "[]"⟩ (fun _ => some (PyVal.list []))).wire_headers "Authorization"
      = some "Token abc" ∧
    ((PyVal.list []).hasLen = true →
      (exampleClient.get "/repos/org/name/issues" Option.none [("state", "open")]
        ⟨200, [], "[]"⟩ (fun _ => some (PyVal.list []))).result
        = .ok (200, .json (PyVal.list []))) ∧
    ((PyVal.list []).hasLen = false →
      (exampleClient.get "/repos/org/name/issues" Option.none [("state", "open")]
        ⟨200, [], "[]"⟩ (fun _ => some (PyVal.list []))).result
        = .error ("TypeError: object of type " ++ (PyVal.list []).pyType ++ " has no len()")) :=
  C4_end_to_end (fun _ => some (PyVal.list [])) ⟨200, [], "[]"⟩ (PyVal.list []) rfl rfl

/-- C5, counterexample: a base URL ending in `/` joined with a path
beginning in `/` yields `x//y` — a double slash at the join point — since
the code only ever inserts a separator and never removes one. -/
theorem C5_counterexample :
    pyEndsWith "x/" "/" = true ∧ pyStartsWith "/y" "/" = true ∧
    Client.connect_url ⟨"x/", Option.none, Option.none, "vsc-rest-client", false⟩ "/y"
      = "x//y" ∧
    ("x//y").data = ['x', '/', '/', 'y'] := by
  decide

/-- C5 (amended): when the base URL has no trailing slash and the path no
leading slash, exactly one `/` separator is inserted; in every other case
the two strings are concatenated with no separator, so a trailing slash
meeting a leading slash stays a double slash. -/
theorem C5_join (c : Client) (url : String) :
    (pyEndsWith c.url "/" = false → pyStartsWith url "/" = false →
      Client.connect_url c url = c.url ++ "/" ++ url) ∧
    (pyEndsWith c.url "/" = true ∨ pyStartsWith url "/" = true →
      Client.connect_url c url = c.url ++ url) := by
  constructor
  · intro h1 h2
    simp [Client.connect_url, h1, h2]
  · intro h
    rcases h with h | h
    · simp [Client.connect_url, h]
    · simp [Client.connect_url, h]

/-- C6: censoring `{"password": "x", "other": "y"}` with secrets
`["password"]` replaces exactly the `password` entry with the fixed
placeholder and leaves `other` untouched, and censoring any non-mapping
payload returns it unchanged without raising. -/
theorem C6_censor :
    censor_request ["password"] (.dict [("password", .str "x"), ("other", .str "y")])
      = .dict [("password", .str CENSORED_MESSAGE), ("other", .str "y")] ∧
    (∀ (secrets : List String) (p : PyVal), p.isDict = false →
      censor_request secrets p = p) := by
  constructor
  · rfl
  · intro secrets p hp
    cases p <;> first | rfl | simp [PyVal.isDict] at hp

/-- C7: for every request whose body is a non-string mapping, the body
sent over the wire is the JSON serialization of the full, uncensored
body, while the body written to the debug log is a censored copy in which
the value under the key `password` (when present) is replaced by the
fixed placeholder; censoring never alters the transmitted request. -/
theorem C7_wire_uncensored_log_censored (c : Client) (method url : String)
    (kvs : List (String × PyVal)) (headers : Option (List (String × String)))
    (content_type : Option String) (resp : HttpResponse)
    (loads : String → Option PyVal) :
    (c.request method url (.dict kvs) headers content_type resp loads).wire_body
      = some (json_dumps (.dict kvs)) ∧
    (c.request method url (.dict kvs) headers content_type resp loads).log_body
      = .dict (kvs.map (fun kv =>
          if kv.1 == "password" then (kv.1, .str CENSORED_MESSAGE) else kv)) := by
  constructor
  · simp [Client.request]
  · simp [Client.request, censor_request, List.contains]

/-- C8, counterexample: a GET whose 200 response body is `42` — valid
JSON, so parsing succeeds with the integer 42 — does not return the
parsed value as the body: `len(pybody)` in the response-size debug log
raises `TypeError` instead. -/
theorem C8_counterexample :
    (fun s => if s = "42" then some (PyVal.int 42) else Option.none) "42"
      = some (PyVal.int 42) ∧
    (demoClient.get "/x" Option.none [] ⟨200, [], "42"⟩
      (fun s => if s = "42" then some (PyVal.int 42) else Option.none)).result
      = .error "TypeError: object of type int has no len()" := by
  exact ⟨rfl, rfl⟩

/-- C8 (amended): for every executed request, a HEAD request returns the
response header collection as its body; for any other method the decoded
response text's JSON parse result is returned as the body when it is a
string, array or object, the raw decoded text is returned without raising
when parsing fails, and a parse that succeeds with a scalar (null,
boolean or number) makes the response-size debug log raise `TypeError`
instead of returning. -/
theorem C8_response_decoding (c : Client) (method url : String) (body : PyVal)
    (headers : Option (List (String × String))) (content_type : Option String)
    (resp : HttpResponse) (loads : String → Option PyVal) :
    (method = "HEAD" →
      (c.request method url body headers content_type resp loads).result
        = .ok (resp.code, .headers resp.resp_headers)) ∧
    (method ≠ "HEAD" → ∀ v, loads resp.body = some v → v.hasLen = true →
      (c.request method url body headers content_type resp loads).result
        = .ok (resp.code, .json v)) ∧
    (method ≠ "HEAD" → ∀ v, loads resp.body = some v → v.hasLen = false →
      (c.request method url body headers content_type resp loads).result
        = .error ("TypeError: object of type " ++ v.pyType ++ " has no len()")) ∧
    (method ≠ "HEAD" → loads resp.body = Option.none →
      (c.request method url body headers content_type resp loads).result
        = .ok (resp.code, .text resp.body)) := by
  refine ⟨?_, ?_, ?_, ?_⟩
  · intro h
    simp [Client.request, ResponseBody.hasLen, h]
  · intro h v hv hl
    simp [Client.request, ResponseBody.hasLen, h, hv, hl]
  · intro h v hv hl
    simp [Client.request, ResponseBody.hasLen, ResponseBody.pyTypeName, h, hv, hl]
  · intro h hv
    simp [Client.request, ResponseBody.hasLen, h, hv]

/-- C9, counterexample: a POST with no body still sends the header
`Content-Type: application/json` — the verb methods pass the content type
unconditionally — refuting that the header is set exactly when a body is
supplied. -/
theorem C9_counterexample :
    (demoClient.post "/x" .none Option.none [] ⟨200, [], ""⟩
      (fun _ => Option.none)).wire_body = Option.none ∧
    dictGet (demoClient.post "/x" .none Option.none [] ⟨200, [], ""⟩
      (fun _ => Option.none)).wire_headers "Content-Type" = some "application/json" := by
  exact ⟨rfl, rfl⟩

/-- C9 (amended): the system sets `Content-Type: application/json` on
POST, PUT, PATCH and DELETE requests unconditionally — whether or not a
body is supplied — and never sets a Content-Type header on GET or HEAD
requests (their sent Content-Type entry is whatever the caller supplied). -/
theorem C9_content_type (c : Client) (url : String) (body : PyVal)
    (headers : Option (List (String × String))) (params : List (String × String))
    (resp : HttpResponse) (loads : String → Option PyVal) :
    dictGet (c.post url body headers params resp loads).wire_headers "Content-Type"
      = some "application/json" ∧
    dictGet (c.put url body headers params resp loads).wire_headers "Content-Type"
      = some "application/json" ∧
    dictGet (c.patch url body headers params resp loads).wire_headers "Content-Type"
      = some "application/json" ∧
    dictGet (c.delete url headers body params resp loads).wire_headers "Content-Type"
      = some "application/json" ∧
    dictGet (c.get url headers params resp loads).wire_headers "Content-Type"
      = dictGet (headers.getD []) "Content-Type" ∧
    dictGet (c.head url headers params resp loads).wire_headers "Content-Type"
      = dictGet (headers.getD []) "Content-Type" := by
  refine ⟨?_, ?_, ?_, ?_, ?_, ?_⟩
  · rw [Client.post, request_contentType_set]
  · rw [Client.put, request_contentType_set]
  · rw [Client.patch, request_contentType_set]
  · rw [Client.delete, request_contentType_set]
  · rw [Client.get, request_contentType_unset]
  · rw [Client.head, request_contentType_unset]

/-- C10: `Client.request` mutates the caller's headers dictionary in
place; after the call that same dictionary holds the configured
`User-Agent` (overwriting any caller value), the configured
`Authorization` when an auth header is configured (overwriting any caller
value), the `Content-Type` when one applies, and every other entry of the
caller's dictionary unchanged. -/
theorem C10_request_mutates_headers (c : Client) (method url : String) (body : PyVal)
    (h0 : List (String × String)) (content_type : Option String)
    (resp : HttpResponse) (loads : String → Option PyVal) :
    dictGet (c.request method url body (some h0) content_type resp loads).wire_headers
      "User-Agent" = some c.user_agent ∧
    (∀ a, c.auth_header = some a →
      dictGet (c.request method url body (some h0) content_type resp loads).wire_headers
        "Authorization" = some a) ∧
    (∀ ct, content_type = some ct →
      dictGet (c.request method url body (some h0) content_type resp loads).wire_headers
        "Content-Type" = some ct) ∧
    (∀ k, k ≠ "User-Agent" → k ≠ "Authorization" → k ≠ "Content-Type" →
      dictGet (c.request method url body (some h0) content_type resp loads).wire_headers
        k = dictGet h0 k) := by
  refine ⟨?_, ?_, ?_, ?_⟩
  · rw [wire_headers_eq, dictGet_dictSet_self]
  · intro a ha
    rw [wire_headers_eq, ha, dictGet_dictSet_other _ _ _ _ (by decide),
      dictGet_dictSet_self]
  · intro ct hct
    subst hct
    exact request_contentType_set c method url body (some h0) ct resp loads
  · intro k hk1 hk2 hk3
    rw [wire_headers_eq]
    cases c.auth_header with
    | none =>
      cases content_type with
      | none => rw [dictGet_dictSet_other _ _ _ _ hk1]; rfl
      | some ct =>
        rw [dictGet_dictSet_other _ _ _ _ hk1, dictGet_dictSet_other _ _ _ _ hk3]; rfl
    | some a =>
      cases content_type with
      | none =>
        rw [dictGet_dictSet_other _ _ _ _ hk1, dictGet_dictSet_other _ _ _ _ hk2]; rfl
      | some ct =>
        rw [dictGet_dictSet_other _ _ _ _ hk1, dictGet_dictSet_other _ _ _ _ hk2,
          dictGet_dictSet_other _ _ _ _ hk3]; rfl

end Rest
